import Mathlib

/-!
Verification of the TravelSphere travel-booking backend
(`database.sql`, `server.js`, and the unnamed second server variant).

The SQL `DECIMAL(10,2)` money type is modelled as exact rationals (`ℚ`);
MySQL `DATE` values used only for chronological comparison (promo validity
windows) are modelled as integers ordered chronologically, while JavaScript
`Date` component arithmetic (the age check) is modelled by a record of
year/month/day components.  Password hashing is an external collaborator and
is abstracted (the stored credential is opaque; `bcrypt.compare` becomes an
abstract `verify` function parameter).
-/

namespace TravelSphere

/-- `discount_type ENUM('percentage','fixed')` from the `promo_codes` table. -/
inductive DiscountType where
  | percentage
  | fixed
  deriving DecidableEq, Repr

/-- A row of the `promo_codes` table (`database.sql`).  Dates (`valid_from`,
`valid_until`, "today") are integers ordered chronologically. -/
structure PromoCode where
  code : String
  discountType : DiscountType
  discountValue : ℚ
  minBookingAmount : ℚ
  maxUses : Option Nat
  currentUses : Nat
  validFrom : Int
  validUntil : Int
  isActive : Bool
  deriving DecidableEq, Repr

/-- The row filter of the `SELECT` inside the stored procedure
`apply_discount` (`database.sql`):
`WHERE code = promo_code AND is_active = TRUE AND CURDATE() BETWEEN
valid_from AND valid_until AND (max_uses IS NULL OR current_uses < max_uses)`. -/
def promoValid (today : Int) (code : String) (pc : PromoCode) : Bool :=
  pc.code == code && pc.isActive &&
    (decide (pc.validFrom ≤ today) && decide (today ≤ pc.validUntil)) &&
    (match pc.maxUses with
     | none => true
     | some m => decide (pc.currentUses < m))

/-- The promo lookup of `apply_discount`: `SELECT discount_type,
discount_value INTO ... FROM promo_codes WHERE ... LIMIT 1`.  Returns the
selected row's kind and value, or `none` when no row qualifies (in which
case the procedure's `promo_type` stays `NULL` and no discount branch
fires). -/
def validatePromo (promos : List PromoCode) (code : String) (today : Int) :
    Option (DiscountType × ℚ) :=
  (promos.find? (promoValid today code)).map fun pc =>
    (pc.discountType, pc.discountValue)

/-- The validator with explicit state passing: the lookup is a single
`SELECT`, so the table is returned unchanged (validation never writes). -/
def validatePromoSt (promos : List PromoCode) (code : String) (today : Int) :
    Option (DiscountType × ℚ) × List PromoCode :=
  (validatePromo promos code today, promos)

/-- The stored procedure `apply_discount(booking_price, promo_code,
is_student, OUT final_price, OUT discount_applied)` (`database.sql`,
lines 162–199), returned as `(final_price, discount_applied)`.
`promoCode = none` models a `NULL` argument; the procedure also skips the
lookup when the code is the empty string. -/
def apply_discount (promos : List PromoCode) (today : Int)
    (bookingPrice : ℚ) (promoCode : Option String) (isStudent : Bool) :
    ℚ × ℚ :=
  -- SET student_discount = booking_price * 0.10 (when is_student)
  let studentDiscount : ℚ := if isStudent then bookingPrice * (10 / 100) else 0
  let promoDiscount : ℚ :=
    match promoCode with
    | none => 0
    | some c =>
      if c = "" then 0
      else
        match validatePromo promos c today with
        | none => 0
        | some (DiscountType.percentage, v) =>
            (bookingPrice - studentDiscount) * (v / 100)
        | some (DiscountType.fixed, v) => v
  let discountApplied := studentDiscount + promoDiscount
  -- SET final_price = GREATEST(booking_price - discount_applied, 0)
  (max (bookingPrice - discountApplied) 0, discountApplied)

/-- A redemption attempt as the request path performs it: it runs the
stored procedure's computation and returns the promo-code table unchanged,
because nothing in `database.sql` or either server file ever updates
`current_uses`. -/
def redeemPromo (promos : List PromoCode) (today : Int) (bookingPrice : ℚ)
    (promoCode : Option String) (isStudent : Bool) :
    (ℚ × ℚ) × List PromoCode :=
  (apply_discount promos today bookingPrice promoCode isStudent, promos)

/-- A calendar date as JavaScript exposes it: `getFullYear()`,
`getMonth()` (0-based), `getDate()`. -/
structure Date where
  year : Int
  month : Int
  day : Int
  deriving DecidableEq, Repr

/-- The age computation of the unnamed server variant's `/api/register`
handler (`part_000`, lines 100–104): year difference, decremented when the
birthday has not yet occurred this year. -/
def computeAge (today birth : Date) : Int :=
  let age := today.year - birth.year
  let monthDiff := today.month - birth.month
  if monthDiff < 0 ∨ (monthDiff = 0 ∧ today.day < birth.day) then age - 1
  else age

/-- A row of the `users` table.  The `password` column holds the opaque
bcrypt hash; hashing itself is abstracted, so the stored string is whatever
the registration path supplies. -/
structure UserRec where
  id : Nat
  name : String
  email : String
  password : String
  dob : Option Date
  isStudent : Bool
  isAdmin : Bool
  deriving DecidableEq, Repr

/-- Outcome of a registration request. -/
inductive RegResult where
  | missingFields
  | underage
  | emailTaken
  | registered
  deriving DecidableEq, Repr

/-- `POST /api/register` of `server.js` (lines 72–98).  JavaScript
truthiness: an absent or empty `name`/`email`/`password` is missing.  The
duplicate check and the insert both use `email.toLowerCase()`.  There is no
age check in this handler; `dob` is stored as given (or `NULL`).  The new
row's id stands in for `AUTO_INCREMENT`. -/
def register_serverJs (users : List UserRec) (name email password : String)
    (dob : Option Date) (isStudent : Bool) : RegResult × List UserRec :=
  if name = "" ∨ email = "" ∨ password = "" then (.missingFields, users)
  else if users.any (fun u => u.email == email.toLower) then
    (.emailTaken, users)
  else
    (.registered,
      users ++ [⟨users.length + 1, name, email.toLower, password, dob,
                 isStudent, false⟩])

/-- `POST /api/register` of the unnamed server variant (`part_000`,
lines 91–127): requires all four fields, rejects a computed age below 18
before touching the store, checks the email (as given, no lowercasing) for
duplicates, then inserts (role flags default to `FALSE`). -/
def register_part000 (users : List UserRec) (name email password : String)
    (dob : Option Date) (today : Date) : RegResult × List UserRec :=
  match dob with
  | none => (.missingFields, users)
  | some birth =>
    if name = "" ∨ email = "" ∨ password = "" then (.missingFields, users)
    else if computeAge today birth < 18 then (.underage, users)
    else if users.any (fun u => u.email == email) then (.emailTaken, users)
    else
      (.registered,
        users ++ [⟨users.length + 1, name, email, password, some birth,
                   false, false⟩])

/-- Outcome of a login request. -/
inductive LoginResult where
  | missingFields
  | invalid
  | success (id : Nat) (name email : String) (isStudent isAdmin : Bool)
  deriving DecidableEq, Repr

/-- The row filter of `server.js`'s login query (lines 109–112):
`WHERE email = ? OR LOWER(name) = ?`, both parameters being
`identifier.toLowerCase()`.  String equality is modelled as exact
comparison; the registration path stores emails lowercased. -/
def loginMatch (identifier : String) (u : UserRec) : Bool :=
  u.email == identifier.toLower || u.name.toLower == identifier.toLower

/-- `POST /api/login` of `server.js` (lines 101–142).  `verify` abstracts
`bcrypt.compare`; on success the session/user payload carries the row's
identity and role flags. -/
def login_serverJs (verify : String → String → Bool)
    (users : List UserRec) (identifier password : String) : LoginResult :=
  if identifier = "" ∨ password = "" then .missingFields
  else
    match users.find? (loginMatch identifier) with
    | none => .invalid
    | some u =>
      if verify password u.password then
        .success u.id u.name u.email u.isStudent u.isAdmin
      else .invalid

/-- `status ENUM('pending','confirmed','cancelled','completed')`. -/
inductive BStatus where
  | pending
  | confirmed
  | cancelled
  | completed
  deriving DecidableEq, Repr

/-- A row of the `bookings` table (the columns the handlers under study
touch). -/
structure Booking where
  id : Nat
  userId : Nat
  bookingType : String
  itemName : String
  price : ℚ
  status : BStatus
  deriving DecidableEq, Repr

/-- The row filter of the cancel handler's
`UPDATE bookings SET status = "cancelled" WHERE id = ? AND user_id = ?`. -/
def cancelMatch (bid uid : Nat) (b : Booking) : Bool :=
  b.id == bid && b.userId == uid

/-- Outcome of a cancel request. -/
inductive CancelResult where
  | success
  | notFound
  deriving DecidableEq, Repr

/-- `PATCH /api/bookings/:id/cancel` of `server.js` (lines 217–233).  The
handler runs behind `requireAuth` only and never consults the session's
admin flag, so `isAdmin` is accepted and ignored.  mysql2's default
connection flags include `FOUND_ROWS`, so `affectedRows` counts the rows
*matched* by the `UPDATE`, not only the rows changed; `affectedRows === 0`
yields the 404 branch. -/
def cancelBooking (bookings : List Booking) (bid uid : Nat)
    (_isAdmin : Bool) : CancelResult × List Booking :=
  let updated := bookings.map fun b =>
    if cancelMatch bid uid b then { b with status := BStatus.cancelled }
    else b
  let affectedRows := bookings.countP (cancelMatch bid uid)
  if affectedRows = 0 then (.notFound, bookings) else (.success, updated)

/-- A row of the `reviews` table. -/
structure ReviewRow where
  userId : Nat
  bookingId : Nat
  rating : Int
  comment : Option String
  deriving DecidableEq, Repr

/-- Outcome of a review-creation request. -/
inductive ReviewResult where
  | missingFields
  | bookingNotFound
  | success
  | serverError
  deriving DecidableEq, Repr

/-- `POST /api/reviews` of `server.js` (lines 236–264).  JavaScript
truthiness makes an absent or zero `bookingId`/`rating` a missing field
(400).  The handler checks that the booking exists and belongs to the
session user (404 otherwise) and then inserts; the application performs no
rating-range check, so a rating outside `[1,5]` is stopped only by the
schema's `CHECK (rating >= 1 AND rating <= 5)`, whose violation the
handler's catch block surfaces as a 500 server error. -/
def addReview_serverJs (bookings : List Booking) (reviews : List ReviewRow)
    (uid : Nat) (bookingId : Option Nat) (rating : Option Int)
    (comment : Option String) : ReviewResult × List ReviewRow :=
  match bookingId, rating with
  | some bid, some r =>
    if bid = 0 ∨ r = 0 then (.missingFields, reviews)
    else if bookings.any (fun b => b.id == bid && b.userId == uid) then
      if 1 ≤ r ∧ r ≤ 5 then (.success, reviews ++ [⟨uid, bid, r, comment⟩])
      else (.serverError, reviews)
    else (.bookingNotFound, reviews)
  | _, _ => (.missingFields, reviews)

/-- `PATCH /api/admin/users/:id` of `server.js` (lines 390–404):
`UPDATE users SET is_admin = ?, is_student = ? WHERE id = ?` with parameters
`isAdmin || false` and `isStudent || false` — an omitted (or falsy) body
flag becomes `false`. -/
def adminUpdateUser (users : List UserRec) (targetId : Nat)
    (isAdminBody isStudentBody : Option Bool) : List UserRec :=
  users.map fun u =>
    if u.id == targetId then
      { u with isAdmin := isAdminBody.getD false,
               isStudent := isStudentBody.getD false }
    else u

/-! ### Helper lemmas -/

/-- Unfolding of the stored procedure's row filter into its conjuncts. -/
theorem promoValid_iff (today : Int) (code : String) (pc : PromoCode) :
    promoValid today code pc = true ↔
      (pc.code = code ∧ pc.isActive = true ∧ pc.validFrom ≤ today ∧
        today ≤ pc.validUntil ∧
        ∀ m, pc.maxUses = some m → pc.currentUses < m) := by
  cases h : pc.maxUses <;>
    simp [promoValid, h, Bool.and_eq_true, decide_eq_true_eq, and_assoc]

/-- `find?` returns the unique element satisfying the predicate. -/
theorem find?_unique_of_mem {α : Type} (p : α → Bool) (l : List α) (a : α)
    (ha : a ∈ l) (hpa : p a = true)
    (huniq : ∀ b ∈ l, p b = true → b = a) :
    l.find? p = some a := by
  induction l with
  | nil => cases ha
  | cons x xs ih =>
    by_cases hx : p x = true
    · have hxa : x = a := huniq x (List.mem_cons_self x xs) hx
      subst hxa
      exact List.find?_cons_of_pos _ hx
    · have hax : a ≠ x := fun h => hx (h ▸ hpa)
      have ha' : a ∈ xs := by
        rcases List.mem_cons.mp ha with h | h
        · exact absurd h hax
        · exact h
      rw [List.find?_cons_of_neg _ hx]
      exact ih ha' fun b hb hpb => huniq b (List.mem_cons_of_mem _ hb) hpb

/-! ### Claim theorems -/

/-- C1: the discount computation returns `(finalPrice, totalDiscount)` with
`studentDiscount = P * 0.10` for students (else 0), a percentage promo of
value `V` contributing `(P - studentDiscount) * (V / 100)` on the
post-student-discount amount, a fixed promo contributing its flat value
independent of `P`, `totalDiscount` their sum, and
`finalPrice = max(P - totalDiscount, 0)`, never negative. -/
theorem C1_apply_discount_formula (promos : List PromoCode) (today : Int)
    (P : ℚ) (code : String) (hc : code ≠ "") (st : Bool) :
    (∀ v, validatePromo promos code today =
        some (DiscountType.percentage, v) →
      apply_discount promos today P (some code) st =
        (max (P - ((if st then P * (10 / 100) else 0) +
            (P - (if st then P * (10 / 100) else 0)) * (v / 100))) 0,
          (if st then P * (10 / 100) else 0) +
            (P - (if st then P * (10 / 100) else 0)) * (v / 100))) ∧
    (∀ v, validatePromo promos code today = some (DiscountType.fixed, v) →
      apply_discount promos today P (some code) st =
        (max (P - ((if st then P * (10 / 100) else 0) + v)) 0,
          (if st then P * (10 / 100) else 0) + v)) ∧
    (validatePromo promos code today = none →
      apply_discount promos today P (some code) st =
        (max (P - (if st then P * (10 / 100) else 0)) 0,
          if st then P * (10 / 100) else 0)) ∧
    0 ≤ (apply_discount promos today P (some code) st).1 := by
  refine ⟨fun v h => ?_, fun v h => ?_, fun h => ?_, ?_⟩
  · simp [apply_discount, hc, h]
  · simp [apply_discount, hc, h]
  · simp [apply_discount, hc, h]
  · rw [show (apply_discount promos today P (some code) st).1 =
        max (P - (apply_discount promos today P (some code) st).2) 0
      from rfl]
    exact le_max_right _ _

/-- The sample promo `('WELCOME10','percentage',10.00,1000,100,...)` from
`database.sql`, its validity window encoded as `[0, 1000]`. -/
def promoWELCOME10 : PromoCode :=
  ⟨"WELCOME10", DiscountType.percentage, 10, 1000, some 100, 0, 0, 1000,
    true⟩

/-- C1 witness: a student booking of 100 with the 10% promo yields a
discount of `10 + 90 * 10% = 19` and a final price of `81`. -/
theorem C1_apply_discount_formula_witness :
    apply_discount [promoWELCOME10] 500 100 (some "WELCOME10") true =
      (81, 19) := by
  have h := (C1_apply_discount_formula [promoWELCOME10] 500 100 "WELCOME10"
      (by decide) true).1 10 (by rfl)
  rw [h]
  norm_num

/-- C2: promo validation yields the code's kind and value iff the code
exists (codes are unique per the schema), is active, today lies in
`[validFrom, validUntil]` inclusive, and the use cap is absent or not
reached; a missing code yields no discount; an invalid code contributes
exactly zero discount to the procedure without an error; and validation
never mutates the promo table. -/
theorem C2_validatePromo_spec (promos : List PromoCode) (code : String)
    (today : Int)
    (hinj : ∀ a ∈ promos, ∀ b ∈ promos, a.code = b.code → a = b) :
    (∀ pc ∈ promos, pc.code = code →
      (validatePromo promos code today =
          some (pc.discountType, pc.discountValue) ↔
        (pc.isActive = true ∧ pc.validFrom ≤ today ∧
          today ≤ pc.validUntil ∧
          ∀ m, pc.maxUses = some m → pc.currentUses < m))) ∧
    ((∀ pc ∈ promos, pc.code ≠ code) →
      validatePromo promos code today = none) ∧
    (∀ (P : ℚ) (st : Bool), code ≠ "" →
      validatePromo promos code today = none →
      apply_discount promos today P (some code) st =
        apply_discount promos today P none st) ∧
    (validatePromoSt promos code today).2 = promos := by
  refine ⟨fun pc hpc hcode => ⟨fun h => ?_, fun hcond => ?_⟩,
    fun hno => ?_, fun P st hc h => ?_, rfl⟩
  · unfold validatePromo at h
    rcases Option.map_eq_some'.mp h with ⟨pc', hfind, -⟩
    have hmem := List.mem_of_find?_eq_some hfind
    have hvalid := List.find?_some hfind
    have hcode' : pc'.code = code := ((promoValid_iff _ _ _).mp hvalid).1
    have hpc' : pc' = pc := hinj pc' hmem pc hpc (hcode'.trans hcode.symm)
    subst hpc'
    have hconds := (promoValid_iff _ _ _).mp hvalid
    exact ⟨hconds.2.1, hconds.2.2.1, hconds.2.2.2.1, hconds.2.2.2.2⟩
  · have hpv : promoValid today code pc = true :=
      (promoValid_iff _ _ _).mpr
        ⟨hcode, hcond.1, hcond.2.1, hcond.2.2.1, hcond.2.2.2⟩
    have huniq : ∀ b ∈ promos, promoValid today code b = true → b = pc :=
      fun b hb hpb =>
        hinj b hb pc hpc
          ((((promoValid_iff _ _ _).mp hpb).1).trans hcode.symm)
    unfold validatePromo
    rw [find?_unique_of_mem _ _ pc hpc hpv huniq]
    rfl
  · unfold validatePromo
    rw [List.find?_eq_none.mpr fun b hb hpb =>
      hno b hb (((promoValid_iff _ _ _).mp hpb).1)]
    rfl
  · simp [apply_discount, hc, h]

/-- The sample promo `('FLAT500','fixed',500.00,2000,50,...)` from
`database.sql`, its validity window encoded as `[0, 100]`. -/
def promoFLAT500 : PromoCode :=
  ⟨"FLAT500", DiscountType.fixed, 500, 2000, some 50, 0, 0, 100, true⟩

/-- C2 witness: on a one-row table the validator returns the fixed
discount of the active, in-window, under-cap code. -/
theorem C2_validatePromo_spec_witness :
    validatePromo [promoFLAT500] "FLAT500" 50 =
      some (DiscountType.fixed, 500) := by
  have h := (C2_validatePromo_spec [promoFLAT500] "FLAT500" 50
      (by intro a ha b hb _
          rw [List.mem_singleton.mp ha, List.mem_singleton.mp hb])).1
    promoFLAT500 (List.mem_singleton.mpr rfl) rfl
  exact h.mpr ⟨rfl, by decide, by decide, by intro m hm; cases hm; decide⟩

/-- C3 (code evaluation at the failing input): on 2026-10-11 (month 9 is
October, 0-based) an applicant born 2009-10-11 has calendar-aware age 17,
yet `server.js`'s `/api/register` inserts the user — it performs no age
check — while the unnamed variant's handler rejects the same request as
underage and inserts nothing. -/
theorem C3_serverJs_register_skips_age_check :
    computeAge ⟨2026, 9, 11⟩ ⟨2009, 9, 11⟩ = 17 ∧
    register_serverJs [] "Kid" "kid@example.com" "pw"
        (some ⟨2009, 9, 11⟩) false =
      (RegResult.registered,
        [⟨1, "Kid", "kid@example.com".toLower, "pw", some ⟨2009, 9, 11⟩,
          false, false⟩]) ∧
    register_part000 [] "Kid" "kid@example.com" "pw" (some ⟨2009, 9, 11⟩)
        ⟨2026, 9, 11⟩ =
      (RegResult.underage, []) := by
  exact ⟨by decide, rfl, by decide⟩

/-- Unfolding of the cancel handler. -/
theorem cancelBooking_def (bookings : List Booking) (bid uid : Nat)
    (adm : Bool) :
    cancelBooking bookings bid uid adm =
      if bookings.countP (cancelMatch bid uid) = 0 then
        (CancelResult.notFound, bookings)
      else
        (CancelResult.success,
          bookings.map fun b =>
            if cancelMatch bid uid b then
              { b with status := BStatus.cancelled }
            else b) := rfl

/-- The `UPDATE`'s row filter holds exactly on the caller's own booking. -/
theorem cancelMatch_iff (bid uid : Nat) (b : Booking) :
    cancelMatch bid uid b = true ↔ (b.id = bid ∧ b.userId = uid) := by
  simp [cancelMatch]

/-- C4: cancelling an owned, confirmed booking succeeds and sets its
status to `cancelled`; cancelling it again also succeeds (the `UPDATE`
still matches the row) and leaves the stored state unchanged. -/
theorem C4_cancel_idempotent (bookings : List Booking) (bid uid : Nat)
    (adm : Bool)
    (h : ∃ b ∈ bookings,
      b.id = bid ∧ b.userId = uid ∧ b.status = BStatus.confirmed) :
    (cancelBooking bookings bid uid adm).1 = CancelResult.success ∧
    (∀ b ∈ (cancelBooking bookings bid uid adm).2,
      b.id = bid → b.userId = uid → b.status = BStatus.cancelled) ∧
    (cancelBooking (cancelBooking bookings bid uid adm).2 bid uid adm).1 =
      CancelResult.success ∧
    (cancelBooking (cancelBooking bookings bid uid adm).2 bid uid adm).2 =
      (cancelBooking bookings bid uid adm).2 := by
  classical
  obtain ⟨b0, hb0, hid, huid, -⟩ := h
  set f : Booking → Booking := fun b =>
    if cancelMatch bid uid b then { b with status := BStatus.cancelled }
    else b with hf
  have hb0m : cancelMatch bid uid b0 = true :=
    (cancelMatch_iff _ _ _).mpr ⟨hid, huid⟩
  have hpos : bookings.countP (cancelMatch bid uid) ≠ 0 := by
    have : 0 < bookings.countP (cancelMatch bid uid) :=
      List.countP_pos_iff.mpr ⟨b0, hb0, hb0m⟩
    omega
  have hpres : ∀ b, cancelMatch bid uid (f b) = cancelMatch bid uid b := by
    rintro ⟨i, u, t, n, p, s⟩
    simp only [hf]
    by_cases hm : cancelMatch bid uid ⟨i, u, t, n, p, s⟩ = true
    · rw [if_pos hm]
      rfl
    · rw [if_neg hm]
  have hidem : ∀ b, f (f b) = f b := by
    rintro ⟨i, u, t, n, p, s⟩
    simp only [hf]
    by_cases hm : cancelMatch bid uid ⟨i, u, t, n, p, s⟩ = true
    · rw [if_pos hm]
      simp [cancelMatch] at hm ⊢
    · rw [if_neg hm]
      exact if_neg hm
  have key1 : cancelBooking bookings bid uid adm =
      (CancelResult.success, bookings.map f) := by
    rw [cancelBooking_def, if_neg hpos, ← hf]
  have hcnt : (bookings.map f).countP (cancelMatch bid uid) =
      bookings.countP (cancelMatch bid uid) := by
    rw [List.countP_map]
    congr 1
    funext b
    exact hpres b
  have hmapmap : (bookings.map f).map f = bookings.map f := by
    rw [List.map_map]
    congr 1
    funext b
    exact hidem b
  refine ⟨by rw [key1], ?_, ?_, ?_⟩
  · rw [key1]
    intro b hb h1 h2
    rcases List.mem_map.mp hb with ⟨a, ha, rfl⟩
    by_cases hm : cancelMatch bid uid a = true
    · rw [hf]
      simp [hm]
    · have hfa : f a = a := by rw [hf]; simp [hm]
      rw [hfa] at h1 h2 ⊢
      exact absurd ((cancelMatch_iff _ _ _).mpr ⟨h1, h2⟩) hm
  · rw [key1]
    show (cancelBooking (bookings.map f) bid uid adm).1 = _
    rw [cancelBooking_def, hcnt, if_neg hpos]
  · rw [key1]
    show (cancelBooking (bookings.map f) bid uid adm).2 = _
    rw [cancelBooking_def, hcnt, if_neg hpos, ← hf]
    exact hmapmap

/-- A confirmed flight booking of user 7, used to instantiate C4. -/
def bookingC4 : Booking := ⟨1, 7, "flight", "IndiGo", 2500, .confirmed⟩

/-- C4 witness: the double-cancel property at a concrete one-booking
store. -/
theorem C4_cancel_idempotent_witness :
    (cancelBooking [bookingC4] 1 7 false).1 = CancelResult.success ∧
    (∀ b ∈ (cancelBooking [bookingC4] 1 7 false).2,
      b.id = 1 → b.userId = 7 → b.status = BStatus.cancelled) ∧
    (cancelBooking (cancelBooking [bookingC4] 1 7 false).2 1 7 false).1 =
      CancelResult.success ∧
    (cancelBooking (cancelBooking [bookingC4] 1 7 false).2 1 7 false).2 =
      (cancelBooking [bookingC4] 1 7 false).2 :=
  C4_cancel_idempotent [bookingC4] 1 7 false
    ⟨bookingC4, List.mem_singleton.mpr rfl, rfl, rfl, rfl⟩

/-- C5 counterexample: (a) cancel happily rewrites a *completed* booking
to `cancelled` (the `UPDATE` has no status guard), and (b) an admin caller
(user 2, admin flag set) cannot cancel user 1's booking — the handler
filters on `user_id = session.userId` and ignores the admin flag, so the
claim's "completed is never changed" and "admin may cancel any booking"
both fail. -/
theorem C5_counterexample :
    cancelBooking [⟨1, 1, "hotel", "Taj Resort", 7000, .completed⟩] 1 1
        false =
      (CancelResult.success,
        [⟨1, 1, "hotel", "Taj Resort", 7000, .cancelled⟩]) ∧
    (cancelBooking [⟨1, 1, "hotel", "Taj Resort", 7000, .confirmed⟩] 1 2
        true).1 =
      CancelResult.notFound := by
  exact ⟨rfl, rfl⟩

/-- C5 (amended): cancel affects exactly the bookings matching
`id = :id AND user_id = caller`; when none matches (missing booking or
booking owned by someone else — even for an admin caller) it fails with
`NotFound` and changes nothing; when one matches it succeeds and sets that
booking's status to `cancelled` from *any* prior status, leaving all other
bookings unchanged. -/
theorem C5_cancel_ownership (bookings : List Booking) (bid uid : Nat)
    (adm : Bool) :
    ((∀ b ∈ bookings, ¬(b.id = bid ∧ b.userId = uid)) →
      cancelBooking bookings bid uid adm =
        (CancelResult.notFound, bookings)) ∧
    ((∃ b ∈ bookings, b.id = bid ∧ b.userId = uid) →
      (cancelBooking bookings bid uid adm).1 = CancelResult.success ∧
      (∀ b ∈ (cancelBooking bookings bid uid adm).2,
        b.id = bid → b.userId = uid → b.status = BStatus.cancelled) ∧
      (∀ b ∈ bookings, ¬(b.id = bid ∧ b.userId = uid) →
        b ∈ (cancelBooking bookings bid uid adm).2)) := by
  classical
  constructor
  · intro hnone
    have hz : bookings.countP (cancelMatch bid uid) = 0 :=
      List.countP_eq_zero.mpr fun b hb hm =>
        hnone b hb ((cancelMatch_iff _ _ _).mp hm)
    rw [cancelBooking_def, if_pos hz]
  · intro ⟨b0, hb0, hid, huid⟩
    have hb0m : cancelMatch bid uid b0 = true :=
      (cancelMatch_iff _ _ _).mpr ⟨hid, huid⟩
    have hpos : bookings.countP (cancelMatch bid uid) ≠ 0 := by
      have : 0 < bookings.countP (cancelMatch bid uid) :=
        List.countP_pos_iff.mpr ⟨b0, hb0, hb0m⟩
      omega
    have key : cancelBooking bookings bid uid adm =
        (CancelResult.success,
          bookings.map fun b =>
            if cancelMatch bid uid b then
              { b with status := BStatus.cancelled }
            else b) := by
      rw [cancelBooking_def, if_neg hpos]
    refine ⟨by rw [key], ?_, ?_⟩
    · rw [key]
      intro b hb h1 h2
      rcases List.mem_map.mp hb with ⟨a, ha, rfl⟩
      by_cases hm : cancelMatch bid uid a = true
      · simp [hm]
      · have hfa :
            (if cancelMatch bid uid a then
              { a with status := BStatus.cancelled }
            else a) = a := by simp [hm]
        rw [hfa] at h1 h2 ⊢
        exact absurd ((cancelMatch_iff _ _ _).mpr ⟨h1, h2⟩) hm
    · rw [key]
      intro b hb hnot
      have hm : cancelMatch bid uid b ≠ true := fun h =>
        hnot ((cancelMatch_iff _ _ _).mp h)
      exact List.mem_map.mpr ⟨b, hb, by simp [hm]⟩

/-- A completed car booking of user 3, used to instantiate C5. -/
def bookingC5 : Booking := ⟨2, 3, "car", "Zoomcar", 900, .completed⟩

/-- C5 witness: cancelling an owned booking (here a completed one)
succeeds. -/
theorem C5_cancel_ownership_witness :
    (cancelBooking [bookingC5] 2 3 true).1 = CancelResult.success :=
  ((C5_cancel_ownership [bookingC5] 2 3 true).2
    ⟨bookingC5, List.mem_singleton.mpr rfl, rfl, rfl⟩).1

/-- Unfolding of the review handler on a body with both fields present. -/
theorem addReview_def (bookings : List Booking) (reviews : List ReviewRow)
    (uid bid : Nat) (r : Int) (c : Option String) :
    addReview_serverJs bookings reviews uid (some bid) (some r) c =
      if bid = 0 ∨ r = 0 then (ReviewResult.missingFields, reviews)
      else if bookings.any fun b => b.id == bid && b.userId == uid then
        if 1 ≤ r ∧ r ≤ 5 then
          (ReviewResult.success, reviews ++ [⟨uid, bid, r, c⟩])
        else (ReviewResult.serverError, reviews)
      else (ReviewResult.bookingNotFound, reviews) := rfl

/-- The review handler's ownership query matches iff the store holds a
booking with that id owned by the session user. -/
theorem reviewOwned_iff (bookings : List Booking) (bid uid : Nat) :
    (bookings.any fun b => b.id == bid && b.userId == uid) = true ↔
      ∃ b ∈ bookings, b.id = bid ∧ b.userId = uid := by
  simp [List.any_eq_true]

/-- C6 counterexample: a rating of 7 on the caller's own booking is *not*
rejected by application-level validation — it reaches the insert and comes
back as the storage-constraint failure path (HTTP 500 server error), not
as the handler's client-side validation error. -/
theorem C6_counterexample :
    addReview_serverJs [⟨1, 1, "flight", "IndiGo", 2500, .confirmed⟩] [] 1
        (some 1) (some 7) none =
      (ReviewResult.serverError, []) ∧
    ReviewResult.serverError ≠ ReviewResult.missingFields := by
  exact ⟨rfl, by decide⟩

/-- C6 (amended): the application validates only presence/truthiness of
`bookingId` and `rating`; a rating outside `[1,5]` passes that check, is
stopped by the schema `CHECK` at insert time, and surfaces as a server
error (500) rather than a client validation error — yet no out-of-range
review is ever persisted, so stored reviews keep ratings in `[1,5]`. -/
theorem C6_rating_range (bookings : List Booking) (reviews : List ReviewRow)
    (uid bid : Nat) (r : Int) (c : Option String) :
    (¬(1 ≤ r ∧ r ≤ 5) →
      (addReview_serverJs bookings reviews uid (some bid) (some r) c).2 =
        reviews ∧
      (addReview_serverJs bookings reviews uid (some bid) (some r) c).1 ≠
        ReviewResult.success) ∧
    (¬(1 ≤ r ∧ r ≤ 5) → bid ≠ 0 → r ≠ 0 →
      (bookings.any fun b => b.id == bid && b.userId == uid) = true →
      (addReview_serverJs bookings reviews uid (some bid) (some r) c).1 =
        ReviewResult.serverError) ∧
    ((∀ rv ∈ reviews, 1 ≤ rv.rating ∧ rv.rating ≤ 5) →
      ∀ rv ∈ (addReview_serverJs bookings reviews uid (some bid) (some r)
          c).2,
        1 ≤ rv.rating ∧ rv.rating ≤ 5) := by
  refine ⟨fun hr => ?_, fun hr hb0 hr0 hown => ?_, fun hinv rv hrv => ?_⟩
  · rw [addReview_def]
    by_cases h1 : bid = 0 ∨ r = 0
    · rw [if_pos h1]
      exact ⟨rfl, by simp⟩
    · rw [if_neg h1]
      by_cases h2 : (bookings.any fun b => b.id == bid && b.userId == uid)
          = true
      · rw [if_pos h2, if_neg hr]
        exact ⟨rfl, by simp⟩
      · rw [if_neg h2]
        exact ⟨rfl, by simp⟩
  · rw [addReview_def, if_neg (not_or.mpr ⟨hb0, hr0⟩), if_pos hown,
      if_neg hr]
  · rw [addReview_def] at hrv
    by_cases h1 : bid = 0 ∨ r = 0
    · rw [if_pos h1] at hrv
      exact hinv rv hrv
    · rw [if_neg h1] at hrv
      by_cases h2 : (bookings.any fun b => b.id == bid && b.userId == uid)
          = true
      · rw [if_pos h2] at hrv
        by_cases h3 : 1 ≤ r ∧ r ≤ 5
        · rw [if_pos h3] at hrv
          rcases List.mem_append.mp hrv with hmem | hmem
          · exact hinv rv hmem
          · rw [List.mem_singleton.mp hmem]
            exact h3
        · rw [if_neg h3] at hrv
          exact hinv rv hrv
      · rw [if_neg h2] at hrv
        exact hinv rv hrv

/-- C6 witness: a rating of 9 is not persisted and does not succeed. -/
theorem C6_rating_range_witness :
    (addReview_serverJs [⟨1, 4, "train", "Rajdhani", 1800, .confirmed⟩] []
        4 (some 1) (some 9) none).2 = [] ∧
    (addReview_serverJs [⟨1, 4, "train", "Rajdhani", 1800, .confirmed⟩] []
        4 (some 1) (some 9) none).1 ≠ ReviewResult.success :=
  (C6_rating_range [⟨1, 4, "train", "Rajdhani", 1800, .confirmed⟩] [] 4 1 9
    none).1 (by decide)

/-- C7: a review-creation request succeeds only when the referenced
booking exists and belongs to the session user; when no such booking
exists the handler answers `NotFound` and persists nothing; and the
invariant "every stored review references a booking of the same user" is
preserved by the handler. -/
theorem C7_review_ownership (bookings : List Booking)
    (reviews : List ReviewRow) (uid bid : Nat) (r : Int)
    (c : Option String) :
    ((addReview_serverJs bookings reviews uid (some bid) (some r) c).1 =
        ReviewResult.success →
      ∃ b ∈ bookings, b.id = bid ∧ b.userId = uid) ∧
    (bid ≠ 0 → r ≠ 0 →
      (¬∃ b ∈ bookings, b.id = bid ∧ b.userId = uid) →
      addReview_serverJs bookings reviews uid (some bid) (some r) c =
        (ReviewResult.bookingNotFound, reviews)) ∧
    ((∀ rv ∈ reviews,
        ∃ b ∈ bookings, b.id = rv.bookingId ∧ b.userId = rv.userId) →
      ∀ rv ∈ (addReview_serverJs bookings reviews uid (some bid) (some r)
          c).2,
        ∃ b ∈ bookings, b.id = rv.bookingId ∧ b.userId = rv.userId) := by
  refine ⟨fun h => ?_, fun hb0 hr0 hno => ?_, fun hinv rv hrv => ?_⟩
  · rw [addReview_def] at h
    by_cases h1 : bid = 0 ∨ r = 0
    · rw [if_pos h1] at h
      exact absurd h (by simp)
    · rw [if_neg h1] at h
      by_cases h2 : (bookings.any fun b => b.id == bid && b.userId == uid)
          = true
      · exact (reviewOwned_iff _ _ _).mp h2
      · rw [if_neg h2] at h
        exact absurd h (by simp)
  · rw [addReview_def, if_neg (not_or.mpr ⟨hb0, hr0⟩),
      if_neg fun hany => hno ((reviewOwned_iff _ _ _).mp hany)]
  · rw [addReview_def] at hrv
    by_cases h1 : bid = 0 ∨ r = 0
    · rw [if_pos h1] at hrv
      exact hinv rv hrv
    · rw [if_neg h1] at hrv
      by_cases h2 : (bookings.any fun b => b.id == bid && b.userId == uid)
          = true
      · rw [if_pos h2] at hrv
        by_cases h3 : 1 ≤ r ∧ r ≤ 5
        · rw [if_pos h3] at hrv
          rcases List.mem_append.mp hrv with hmem | hmem
          · exact hinv rv hmem
          · rw [List.mem_singleton.mp hmem]
            exact (reviewOwned_iff _ _ _).mp h2
        · rw [if_neg h3] at hrv
          exact hinv rv hrv
      · rw [if_neg h2] at hrv
        exact hinv rv hrv

/-- C7 witness: user 9 reviewing booking 5 owned by user 2 gets
`NotFound` and no review row appears. -/
theorem C7_review_ownership_witness :
    addReview_serverJs [⟨5, 2, "hotel", "Taj Resort", 7000, .confirmed⟩]
        [] 9 (some 5) (some 4) none =
      (ReviewResult.bookingNotFound, []) :=
  (C7_review_ownership [⟨5, 2, "hotel", "Taj Resort", 7000, .confirmed⟩]
    [] 9 5 4 none).2.1 (by decide) (by decide) (by decide)

/-- A promo with `max_uses = 1` and `current_uses = 0`. -/
def promoONCE : PromoCode :=
  ⟨"ONCE", DiscountType.fixed, 5, 0, some 1, 0, 0, 10, true⟩

/-- C8 (code evaluation at the failing input): against a promo with
`maxUses = 1`, `currentUses = 0`, two successive redemption attempts
*both* obtain the full discount (final price 95, discount 5 each time) and
the table afterwards is unchanged — the counter is still 0, because
neither the stored procedure nor any request-path code ever increments
`current_uses`, let alone atomically with the cap check. -/
theorem C8_counter_never_incremented :
    (redeemPromo [promoONCE] 1 100 (some "ONCE") false).1 = (95, 5) ∧
    (redeemPromo (redeemPromo [promoONCE] 1 100 (some "ONCE") false).2 1
        100 (some "ONCE") false).1 = (95, 5) ∧
    (redeemPromo (redeemPromo [promoONCE] 1 100 (some "ONCE") false).2 1
        100 (some "ONCE") false).2 = [promoONCE] ∧
    promoONCE.maxUses = some 1 ∧ promoONCE.currentUses = 0 := by
  have hv : validatePromo [promoONCE] "ONCE" 1 =
      some (DiscountType.fixed, 5) := rfl
  have key : apply_discount [promoONCE] 1 100 (some "ONCE") false =
      (95, 5) := by
    have hne : ¬("ONCE" = "") := by decide
    norm_num [apply_discount, hv, max_def, hne]
  exact ⟨key, key, rfl, rfl, rfl⟩

/-- C9: the admin user-update overwrites both role flags unconditionally:
any user row matching the target id ends with
`is_admin = isAdmin || false` and `is_student = isStudent || false`
(an omitted or falsy body flag clears the stored flag), while rows with a
different id are untouched. -/
theorem C9_admin_update_overwrites (users : List UserRec) (tid : Nat)
    (o1 o2 : Option Bool) :
    (∀ u ∈ adminUpdateUser users tid o1 o2,
      u.id = tid → u.isAdmin = o1.getD false ∧ u.isStudent = o2.getD false) ∧
    (∀ u ∈ users, u.id = tid →
      { u with isAdmin := o1.getD false, isStudent := o2.getD false } ∈
        adminUpdateUser users tid o1 o2) ∧
    (∀ u ∈ users, u.id ≠ tid → u ∈ adminUpdateUser users tid o1 o2) := by
  refine ⟨fun u hu hid => ?_, fun u hu hid => ?_, fun u hu hne => ?_⟩
  · simp only [adminUpdateUser] at hu
    rcases List.mem_map.mp hu with ⟨a, ha, rfl⟩
    by_cases hm : (a.id == tid) = true
    · rw [if_pos hm]
      exact ⟨rfl, rfl⟩
    · rw [if_neg hm] at hid ⊢
      exact absurd (by simp [hid]) hm
  · simp only [adminUpdateUser]
    exact List.mem_map.mpr ⟨u, hu, by simp [hid]⟩
  · simp only [adminUpdateUser]
    exact List.mem_map.mpr ⟨u, hu, by simp [hne]⟩

/-- A user holding both role flags, used to instantiate C9. -/
def userC9 : UserRec := ⟨4, "Root", "root@example.com", "h", none, true,
  true⟩

/-- C9 witness: a body that sends only `isStudent: true` silently clears
the target's admin flag. -/
theorem C9_admin_update_overwrites_witness :
    ({ userC9 with isAdmin := false, isStudent := true } : UserRec) ∈
      adminUpdateUser [userC9] 4 none (some true) :=
  (C9_admin_update_overwrites [userC9] 4 none (some true)).2.1 userC9
    (List.mem_singleton.mpr rfl) rfl

/-- `toLower` rewritten to a structurally computable form
(`String.map_eq` from the batteries library). -/
theorem toLower_eq_data (s : String) :
    s.toLower = ⟨s.1.map Char.toLower⟩ :=
  String.map_eq _ _

/-- C10: when the login lookup (`WHERE email = ? OR LOWER(name) = ?`,
parameters lowercased) finds a row and the credential verifies, login
succeeds as that row, and the row necessarily matches the identifier by
lowercased email or by case-insensitive display name — so name-based
login is possible. -/
theorem C10_login_by_name (verify : String → String → Bool)
    (users : List UserRec) (identifier password : String) (u : UserRec)
    (hfound : users.find? (loginMatch identifier) = some u)
    (hv : verify password u.password = true)
    (hid : identifier ≠ "") (hpw : password ≠ "") :
    login_serverJs verify users identifier password =
      LoginResult.success u.id u.name u.email u.isStudent u.isAdmin ∧
    (u.email = identifier.toLower ∨
      u.name.toLower = identifier.toLower) ∧
    u ∈ users := by
  refine ⟨?_, ?_, List.mem_of_find?_eq_some hfound⟩
  · unfold login_serverJs
    rw [if_neg (not_or.mpr ⟨hid, hpw⟩), hfound]
    exact if_pos hv
  · have hm := List.find?_some hfound
    simpa [loginMatch] using hm

/-- The user record used to instantiate C10. -/
def aliceRec : UserRec :=
  ⟨1, "Alice", "alice@example.com", "pw", none, false, false⟩

/-- C10 witness: the identifier `"ALICE"` — which is not the email — logs
Alice in via her display name. -/
theorem C10_login_by_name_witness :
    login_serverJs (fun p h => p == h) [aliceRec] "ALICE" "pw" =
      LoginResult.success 1 "Alice" "alice@example.com" false false ∧
    ("alice@example.com" = "ALICE".toLower ∨
      "Alice".toLower = "ALICE".toLower) := by
  have h1 : loginMatch "ALICE" aliceRec = true := by
    simp only [loginMatch, aliceRec, toLower_eq_data]
    decide
  have h := C10_login_by_name (fun p h => p == h) [aliceRec] "ALICE" "pw"
    aliceRec (List.find?_cons_of_pos _ h1) (by decide) (by decide)
    (by decide)
  exact ⟨h.1, h.2.1⟩

end TravelSphere
